import Mathlib

/-!
A verification development for the data-access core of the EngoDev entity
engine: the change-detection tick model (`change_detection.rs`), the
type-erased byte buffer (`type_erased.rs`), and the fallible-command
staging objects (`system/commands/config.rs`).

Machine integers (`u32` ticks, `usize` offsets) are embedded as `Nat`,
with explicit reduction modulo `2 ^ 32` wherever the source performs
wrapping arithmetic.  Values stored in the byte buffer are embedded as
their byte lists.  Rust `&mut` state is threaded explicitly: a method on
`&mut self` becomes a function returning the updated value alongside any
result.
-/

set_option autoImplicit false

/-- The modulus of the 32-bit wrapping tick counter. -/
def W : Nat := 4294967296

/-- Wrapping 32-bit unsigned subtraction, `a.wrapping_sub(b)` on `u32`
values embedded as naturals. -/
def wsub (a b : Nat) : Nat := (a % W + W - b % W) % W

/-- The per-slot persistent tick pair (the spec's `TickPair`).  Declared in
`crate::component` as `ComponentTicks { added: u32, changed: u32 }`;
`change_detection.rs` holds it by reference inside `Ticks`/`TicksMut`. -/
structure ComponentTicks where
  added : Nat
  changed : Nat
  deriving Repr, DecidableEq

namespace ComponentTicks

/-- Modelled from the spec: `ComponentTicks::is_added` lives in
`crate::component`, outside the provided sources; only its caller (the
`detect_changes_impl!` macro) is in `change_detection.rs`.  Per the spec,
`isAdded()` is true iff `added` lies strictly after `lastChangeTick` and
no later than `currentTick`, compared through wrapping-unsigned deltas
taken from `currentTick`.  The strict-after requirement and the spec's
Example 4 (`added = 10, lastChangeTick = 10, currentTick = 20 ⇒ false`)
determine the strict comparison `<` between the deltas; the spec's inline
formula writes `≤`, which contradicts both and is treated below as the
claim under test. -/
def is_added (t : ComponentTicks) (last_change_tick change_tick : Nat) : Bool :=
  wsub change_tick t.added < wsub change_tick last_change_tick

/-- Modelled from the spec: `ComponentTicks::is_changed`, the identical
wrapping comparison applied to the `changed` tick. -/
def is_changed (t : ComponentTicks) (last_change_tick change_tick : Nat) : Bool :=
  wsub change_tick t.changed < wsub change_tick last_change_tick

/-- Modelled from the spec: `ComponentTicks::set_changed` unconditionally
sets `changed` to the supplied current tick. -/
def set_changed (t : ComponentTicks) (change_tick : Nat) : ComponentTicks :=
  { t with changed := change_tick }

end ComponentTicks

/-- `Ticks<'a>`: a shared borrow of the slot's `ComponentTicks` plus the
per-access tick context.  The borrowed `ComponentTicks` is embedded by
value; shared accessors never write through it. -/
structure Ticks where
  component_ticks : ComponentTicks
  last_change_tick : Nat
  change_tick : Nat
  deriving Repr, DecidableEq

/-- `TicksMut<'a>`: an exclusive borrow of the slot's `ComponentTicks`
plus the per-access tick context.  Writes through the borrow are embedded
as functional updates of this structure. -/
structure TicksMut where
  component_ticks : ComponentTicks
  last_change_tick : Nat
  change_tick : Nat
  deriving Repr, DecidableEq

/-- `ResMut<'a, T>`: unique mutable borrow of a resource. -/
structure ResMut (α : Type) where
  value : α
  ticks : TicksMut

/-- `Res<'a, T>`: shared borrow of a resource. -/
structure Res (α : Type) where
  value : α
  ticks : Ticks

/-- `NonSendMut<'a, T>`: unique borrow of a non-`Send` resource. -/
structure NonSendMut (α : Type) where
  value : α
  ticks : TicksMut

/-- `NonSend<'a, T>`: shared borrow of a non-`Send` resource. -/
structure NonSend (α : Type) where
  value : α
  ticks : Ticks

/-- `Mut<'a, T>`: unique mutable borrow of an entity's component. -/
structure Mut (α : Type) where
  value : α
  ticks : TicksMut

/-- `ReflectMut<'a>`: unique mutable borrow of a reflected component.  The
erased `dyn Reflect` value is embedded as a type parameter. -/
structure ReflectMut (α : Type) where
  value : α
  ticks : TicksMut

namespace ResMut

variable {α : Type}

/-- `detect_changes_impl!`: `is_added` forwards to the slot's tick pair
under the stored context. -/
def is_added (r : ResMut α) : Bool :=
  r.ticks.component_ticks.is_added r.ticks.last_change_tick r.ticks.change_tick

/-- `detect_changes_impl!`: `is_changed` forwards to the slot's tick pair
under the stored context. -/
def is_changed (r : ResMut α) : Bool :=
  r.ticks.component_ticks.is_changed r.ticks.last_change_tick r.ticks.change_tick

/-- `detect_changes_impl!`: the shared `Deref` returns the value and, being
a `&self` method, leaves the accessor (and the slot's ticks) untouched. -/
def deref (r : ResMut α) : α :=
  r.value

/-- `set_changed_impl!`: `SetChanged::set_changed` stamps the slot's
`changed` tick with the stored current tick. -/
def set_changed (r : ResMut α) : ResMut α :=
  { r with ticks.component_ticks := r.ticks.component_ticks.set_changed r.ticks.change_tick }

/-- `set_changed_impl!`: `DerefMut::deref_mut` calls `set_changed` and then
hands out the value mutably; the updated accessor state is returned with
it. -/
def deref_mut (r : ResMut α) : α × ResMut α :=
  let r := r.set_changed
  (r.value, r)

/-- `set_changed_impl!`: `AsMut::as_mut` is defined as `self.deref_mut()`. -/
def as_mut (r : ResMut α) : α × ResMut α :=
  r.deref_mut

/-- `impl_into_inner!`: `into_inner` consumes the accessor, calls
`set_changed`, and returns the value; the final state of the borrowed
slot ticks is returned with it. -/
def into_inner (r : ResMut α) : α × TicksMut :=
  let r := r.set_changed
  (r.value, r.ticks)

end ResMut

namespace Res

variable {α : Type}

/-- `detect_changes_impl!`: `is_added` forwards to the slot's tick pair. -/
def is_added (r : Res α) : Bool :=
  r.ticks.component_ticks.is_added r.ticks.last_change_tick r.ticks.change_tick

/-- `detect_changes_impl!`: `is_changed` forwards to the slot's tick pair. -/
def is_changed (r : Res α) : Bool :=
  r.ticks.component_ticks.is_changed r.ticks.last_change_tick r.ticks.change_tick

/-- `detect_changes_impl!`: the shared `Deref` returns the value; `Res` has
no mutable access path and no operation writing the tick pair. -/
def deref (r : Res α) : α :=
  r.value

end Res

namespace NonSendMut

variable {α : Type}

/-- `detect_changes_impl!`: `is_added` forwards to the slot's tick pair. -/
def is_added (r : NonSendMut α) : Bool :=
  r.ticks.component_ticks.is_added r.ticks.last_change_tick r.ticks.change_tick

/-- `detect_changes_impl!`: `is_changed` forwards to the slot's tick pair. -/
def is_changed (r : NonSendMut α) : Bool :=
  r.ticks.component_ticks.is_changed r.ticks.last_change_tick r.ticks.change_tick

/-- `detect_changes_impl!`: the shared `Deref` returns the value without
touching the ticks. -/
def deref (r : NonSendMut α) : α :=
  r.value

/-- `set_changed_impl!`: `SetChanged::set_changed`. -/
def set_changed (r : NonSendMut α) : NonSendMut α :=
  { r with ticks.component_ticks := r.ticks.component_ticks.set_changed r.ticks.change_tick }

/-- `set_changed_impl!`: `DerefMut::deref_mut` flags, then hands out the
value. -/
def deref_mut (r : NonSendMut α) : α × NonSendMut α :=
  let r := r.set_changed
  (r.value, r)

/-- `set_changed_impl!`: `AsMut::as_mut` is `self.deref_mut()`. -/
def as_mut (r : NonSendMut α) : α × NonSendMut α :=
  r.deref_mut

/-- `impl_into_inner!`: consume, flag, return the value and final ticks. -/
def into_inner (r : NonSendMut α) : α × TicksMut :=
  let r := r.set_changed
  (r.value, r.ticks)

end NonSendMut

namespace NonSend

variable {α : Type}

/-- `detect_changes_impl!`: `is_added` forwards to the slot's tick pair. -/
def is_added (r : NonSend α) : Bool :=
  r.ticks.component_ticks.is_added r.ticks.last_change_tick r.ticks.change_tick

/-- `detect_changes_impl!`: `is_changed` forwards to the slot's tick pair. -/
def is_changed (r : NonSend α) : Bool :=
  r.ticks.component_ticks.is_changed r.ticks.last_change_tick r.ticks.change_tick

/-- `detect_changes_impl!`: the shared `Deref` returns the value; `NonSend`
has no operation writing the tick pair. -/
def deref (r : NonSend α) : α :=
  r.value

end NonSend

namespace Mut

variable {α : Type}

/-- `detect_changes_impl!`: `is_added` forwards to the slot's tick pair. -/
def is_added (r : Mut α) : Bool :=
  r.ticks.component_ticks.is_added r.ticks.last_change_tick r.ticks.change_tick

/-- `detect_changes_impl!`: `is_changed` forwards to the slot's tick pair. -/
def is_changed (r : Mut α) : Bool :=
  r.ticks.component_ticks.is_changed r.ticks.last_change_tick r.ticks.change_tick

/-- `detect_changes_impl!`: the shared `Deref` returns the value without
touching the ticks. -/
def deref (r : Mut α) : α :=
  r.value

/-- `set_changed_impl!`: `SetChanged::set_changed`. -/
def set_changed (r : Mut α) : Mut α :=
  { r with ticks.component_ticks := r.ticks.component_ticks.set_changed r.ticks.change_tick }

/-- `set_changed_impl!`: `DerefMut::deref_mut` flags, then hands out the
value. -/
def deref_mut (r : Mut α) : α × Mut α :=
  let r := r.set_changed
  (r.value, r)

/-- `set_changed_impl!`: `AsMut::as_mut` is `self.deref_mut()`. -/
def as_mut (r : Mut α) : α × Mut α :=
  r.deref_mut

/-- `impl_into_inner!`: consume, flag, return the value and final ticks. -/
def into_inner (r : Mut α) : α × TicksMut :=
  let r := r.set_changed
  (r.value, r.ticks)

end Mut

namespace ReflectMut

variable {α : Type}

/-- `detect_changes_impl!`: `is_added` forwards to the slot's tick pair. -/
def is_added (r : ReflectMut α) : Bool :=
  r.ticks.component_ticks.is_added r.ticks.last_change_tick r.ticks.change_tick

/-- `detect_changes_impl!`: `is_changed` forwards to the slot's tick pair. -/
def is_changed (r : ReflectMut α) : Bool :=
  r.ticks.component_ticks.is_changed r.ticks.last_change_tick r.ticks.change_tick

/-- `detect_changes_impl!`: the shared `Deref` returns the value without
touching the ticks. -/
def deref (r : ReflectMut α) : α :=
  r.value

/-- `set_changed_impl!`: `SetChanged::set_changed`. -/
def set_changed (r : ReflectMut α) : ReflectMut α :=
  { r with ticks.component_ticks := r.ticks.component_ticks.set_changed r.ticks.change_tick }

/-- `set_changed_impl!`: `DerefMut::deref_mut` flags, then hands out the
value.  `ReflectMut` receives no `impl_into_inner!`. -/
def deref_mut (r : ReflectMut α) : α × ReflectMut α :=
  let r := r.set_changed
  (r.value, r)

/-- `set_changed_impl!`: `AsMut::as_mut` is `self.deref_mut()`. -/
def as_mut (r : ReflectMut α) : α × ReflectMut α :=
  r.deref_mut

end ReflectMut

/-- A metadata record of the type-erased buffer: the byte offset of its
value inside the arena plus the caller-supplied payload
(`TypedErasedMeta<UserData>` in `type_erased.rs`). -/
structure TypedErasedMeta (U : Type) where
  offset : Nat
  user_data : U
  deriving Repr, DecidableEq

/-- `TypeErasedVec<UserData>`: a raw contiguous byte arena plus a parallel
metadata table.  The `Vec<MaybeUninit<u8>>` arena is embedded as the list
of its initialized bytes (each a value below 256); heterogeneous pushed
values are embedded as their byte lists. -/
structure TypeErasedVec (U : Type) where
  bytes : List Nat
  metas : List (TypedErasedMeta U)
  deriving Repr, DecidableEq

namespace TypeErasedVec

variable {U : Type}

/-- `TypeErasedVec::new`: both the arena and the metadata table start
empty. -/
def new : TypeErasedVec U :=
  { bytes := [], metas := [] }

/-- `TypeErasedVec::push`: records the current arena length as the new
value's offset, appends one metadata record, then bit-copies the value's
bytes onto the end of the arena (`copy_nonoverlapping` + `set_len`; a
zero-sized value copies nothing).  The value itself is forgotten —
ownership of the bytes transfers to the buffer. -/
def push (v : TypeErasedVec U) (value : List Nat) (user_data : U) : TypeErasedVec U :=
  { bytes := v.bytes ++ value
    metas := v.metas ++ [{ offset := v.bytes.length, user_data := user_data }] }

/-- `TypeErasedVec::drain`: sets the arena length to zero (the backing
bytes are untouched), then, for each metadata record in insertion order,
invokes `func` with the record's byte pointer — embedded as the record's
offset into the pre-drain arena — and the metadata payload by value,
threading an explicit visitor state.  The metadata table is drained
empty. -/
def drain {σ : Type} (v : TypeErasedVec U) (func : σ → Nat → U → σ) (init : σ) :
    σ × TypeErasedVec U :=
  (v.metas.foldl (fun s m => func s m.offset m.user_data) init,
   { bytes := [], metas := [] })

/-- `TypeErasedVec::iter_mut`: visits each record's byte pointer and a
shared reference to its metadata, in order, leaving the table intact. -/
def iter_mut {σ : Type} (v : TypeErasedVec U) (func : σ → Nat → U → σ) (init : σ) :
    σ × TypeErasedVec U :=
  (v.metas.foldl (fun s m => func s m.offset m.user_data) init, v)

/-- `TypeErasedVec::clear`: empties the arena and the metadata table
without visiting anything. -/
def clear (v : TypeErasedVec U) : TypeErasedVec U :=
  { v with bytes := [], metas := [] }

/-- `TypeErasedVec::len`: the live-record count is the metadata table
length. -/
def len (v : TypeErasedVec U) : Nat :=
  v.metas.length

/-- `TypeErasedVec::is_empty`: `len() == 0`. -/
def is_empty (v : TypeErasedVec U) : Bool :=
  v.len == 0

/-- Pushes a whole sequence of (byte-list value, metadata) pairs, in
order. -/
def pushAll (v : TypeErasedVec U) (items : List (List Nat × U)) : TypeErasedVec U :=
  items.foldl (fun acc it => acc.push it.1 it.2) v

/-- The metadata records that a sequence of pushes starting at arena
length `base` lays down: each offset is `base` plus the total size of the
values pushed before it. -/
def metasFrom (base : Nat) : List (List Nat × U) → List (TypedErasedMeta U)
  | [] => []
  | it :: rest => { offset := base, user_data := it.2 } :: metasFrom (base + it.1.length) rest

/-- The bytes a record's pointer exposes: `size` bytes of the arena
starting at `off`. -/
def slice (bytes : List Nat) (off size : Nat) : List Nat :=
  (bytes.drop off).take size

end TypeErasedVec

/-- The operations a caller can perform on a `TypeErasedVec` between
quiescent states: `push` a value's bytes with its metadata, `drain`,
`iter_mut`, or `clear`. -/
inductive BufOp (U : Type) where
  | push (value : List Nat) (user_data : U)
  | drain
  | iter_mut
  | clear

/-- The buffer state after one operation.  The visitors passed to `drain`
and `iter_mut` do not influence the resulting buffer state. -/
def TypeErasedVec.applyOp {U : Type} (v : TypeErasedVec U) : BufOp U → TypeErasedVec U
  | BufOp.push value user_data => v.push value user_data
  | BufOp.drain => (v.drain (fun s _ _ => s) ()).2
  | BufOp.iter_mut => (v.iter_mut (fun s _ _ => s) ()).2
  | BufOp.clear => v.clear

/-- The quiescent buffer state reached by a sequence of operations. -/
def TypeErasedVec.runOps {U : Type} (v : TypeErasedVec U) (ops : List (BufOp U)) :
    TypeErasedVec U :=
  ops.foldl TypeErasedVec.applyOp v

/-- The built-in command error handlers of `CommandErrorHandler`, together
with the caller-supplied closures admitted by `on_err`
(`impl FnOnce(C::Error, CommandContext)`).  A custom handler may mutate
the world through `CommandContext::world`; that effect is embedded as a
function on the world type `ω`.  The source's `CommandErrorHandler::panic`
is the constructor `panicHandler` here. -/
inductive CommandErrorHandler (E ω : Type) where
  | log
  | panicHandler
  | ignore
  | custom (f : E → ω → ω)

/-- Running a handler on a failure value and the world.  `log` emits one
diagnostic record and leaves the world unchanged; `ignore` does nothing;
`panicHandler` raises a fatal fault, embedded as `none`; a custom closure
applies its world effect. -/
def runHandler {E ω : Type} : CommandErrorHandler E ω → E → ω → Option ω
  | .log, _, w => some w
  | .panicHandler, _, _ => none
  | .ignore, _, w => some w
  | .custom f, e, w => some (f e w)

/-- `HandledErrorCommand<C, F>`: a fallible command paired with its
attached error handler. -/
structure HandledErrorCommand (C E ω : Type) where
  command : C
  error_handler : CommandErrorHandler E ω

namespace HandledErrorCommand

variable {C E ω : Type}

/-- `Command::write` for `HandledErrorCommand`: runs the command's
dispatch operation `try_write` against the world; if it returns an error,
invokes the attached handler with that error (and the world, through
`CommandContext`) — otherwise no handler runs.  The dispatch operation of
the `FallibleCommand` trait is a parameter `tryWrite`, returning the
mutated world and an optional failure value.  The second component of the
result is the trace of failure values passed to the handler. -/
def write (tryWrite : C → ω → ω × Option E) (cmd : HandledErrorCommand C E ω) (w : ω) :
    Option ω × List E :=
  match tryWrite cmd.command w with
  | (w1, none) => (some w1, [])
  | (w1, some e) => (runHandler cmd.error_handler e w1, [e])

end HandledErrorCommand

/-- The panic message of `on_err` when the command was already taken. -/
def onErrPanicMsg : String :=
  "Cannot call on_err multiple times for a command error handler."

/-- `FallibleCommandConfig<'a, C, T>`: the staging object returned when a
fallible command is queued.  Holds the command until a handler is
attached (`command: Option<C>`) and an exclusive borrow of the underlying
`T: AddCommand` sink, embedded as the list of `HandledErrorCommand`
records added so far (`add_command` appends). -/
structure FallibleCommandConfig (C E ω : Type) where
  command : Option C
  inner : List (HandledErrorCommand C E ω)

/-- `FinalFallibleCommandConfig<'a, C, T>`: identical staging state; the
macro `impl_fallible_commands!` generates the same `on_err` and `Drop`
for it, differing only in `on_err`'s return value (`()` instead of
`&mut T`), which is not part of the staged state. -/
structure FinalFallibleCommandConfig (C E ω : Type) where
  command : Option C
  inner : List (HandledErrorCommand C E ω)

namespace FallibleCommandConfig

variable {C E ω : Type}

/-- `FallibleCommandConfig::new`: stages the command with no handler
attached yet. -/
def new (c : C) (inner : List (HandledErrorCommand C E ω)) : FallibleCommandConfig C E ω :=
  { command := some c, inner := inner }

/-- `FallibleCommandConfig::on_err`: takes the staged command
(`self.command.take().expect(...)` — a second call finds `None` and
panics, embedded as `Except.error` with the panic message) and adds a
`HandledErrorCommand` pairing it with the supplied handler to the sink. -/
def on_err (cfg : FallibleCommandConfig C E ω) (handler : CommandErrorHandler E ω) :
    Except String (FallibleCommandConfig C E ω) :=
  match cfg.command with
  | none => Except.error onErrPanicMsg
  | some c =>
      Except.ok { command := none
                  inner := cfg.inner ++ [{ command := c, error_handler := handler }] }

/-- The staging object's state after an `on_err` call, whether or not it
panicked: `Option::take` runs before the `expect`, so a panicking call
finds `command` already `None` and leaves the state as it was. -/
def onErrStep (cfg : FallibleCommandConfig C E ω) (handler : CommandErrorHandler E ω) :
    FallibleCommandConfig C E ω :=
  match cfg.on_err handler with
  | Except.ok cfg1 => cfg1
  | Except.error _ => { cfg with command := none }

/-- `Drop for FallibleCommandConfig`: if the command is still staged when
the object is discarded, attach the default handler
`CommandErrorHandler::log` via `on_err`; otherwise do nothing. -/
def drop (cfg : FallibleCommandConfig C E ω) : FallibleCommandConfig C E ω :=
  if cfg.command.isSome then cfg.onErrStep CommandErrorHandler.log else cfg

end FallibleCommandConfig

namespace FinalFallibleCommandConfig

variable {C E ω : Type}

/-- `FinalFallibleCommandConfig::new`. -/
def new (c : C) (inner : List (HandledErrorCommand C E ω)) : FinalFallibleCommandConfig C E ω :=
  { command := some c, inner := inner }

/-- `FinalFallibleCommandConfig::on_err` (generated by the same macro as
`FallibleCommandConfig::on_err`; only the returned borrow differs). -/
def on_err (cfg : FinalFallibleCommandConfig C E ω) (handler : CommandErrorHandler E ω) :
    Except String (FinalFallibleCommandConfig C E ω) :=
  match cfg.command with
  | none => Except.error onErrPanicMsg
  | some c =>
      Except.ok { command := none
                  inner := cfg.inner ++ [{ command := c, error_handler := handler }] }

/-- State after an `on_err` call, panicking or not (see
`FallibleCommandConfig.onErrStep`). -/
def onErrStep (cfg : FinalFallibleCommandConfig C E ω) (handler : CommandErrorHandler E ω) :
    FinalFallibleCommandConfig C E ω :=
  match cfg.on_err handler with
  | Except.ok cfg1 => cfg1
  | Except.error _ => { cfg with command := none }

/-- `Drop for FinalFallibleCommandConfig`. -/
def drop (cfg : FinalFallibleCommandConfig C E ω) : FinalFallibleCommandConfig C E ω :=
  if cfg.command.isSome then cfg.onErrStep CommandErrorHandler.log else cfg

end FinalFallibleCommandConfig

/-- The claim's inline formula for `isAdded()` taken literally as written
in the spec: the wrapping deltas compared through `≤` instead of `<`.
Declared for comparison against `ComponentTicks.is_added`. -/
def is_added_leq_formula (t : ComponentTicks) (last_change_tick change_tick : Nat) : Bool :=
  wsub change_tick t.added ≤ wsub change_tick last_change_tick

theorem wsub_sub_eq (x y : Nat) (hx : x < W) (hy : y < W) :
    wsub x y = if y ≤ x then x - y else x + W - y := by
  simp only [wsub, W] at hx hy ⊢
  split <;> omega

/-- If the slot's `changed` tick lies inside the observation window
`(last_change_tick, change_tick]`, `is_changed` reports true. -/
theorem is_changed_true_of_window (t : ComponentTicks) (last cur : Nat)
    (h1 : last < t.changed) (h2 : t.changed ≤ cur) (h3 : cur < W) :
    t.is_changed last cur = true := by
  simp only [ComponentTicks.is_changed, decide_eq_true_eq]
  rw [wsub_sub_eq cur t.changed h3 (lt_of_le_of_lt h2 h3),
    wsub_sub_eq cur last h3 (by omega)]
  simp only [W] at h3 ⊢
  split_ifs <;> omega

/-- C1.  The claim conjoins the iff "`isAdded()` is true exactly when
`added` lies strictly after `lastChangeTick` and no later than
`currentTick`" with the formula "`(currentTick − added) ≤ (currentTick −
lastChangeTick)`" and with the examples `added = 10 ⇒ false`,
`added = 11 ⇒ true` under `lastChangeTick = 10, currentTick = 20`.  The
`≤` formula contradicts the other two parts (see the counterexample), so
the claim is amended to the strict comparison `<` between the wrapping
deltas.  Amended statement: under a non-wrapped context
(`lastChangeTick ≤ currentTick < 2^32`), `isAdded()` is true iff
`lastChangeTick < added ∧ added ≤ currentTick`; under a wrapped context
(`currentTick < lastChangeTick < 2^32`), true iff
`lastChangeTick < added ∨ added ≤ currentTick` — i.e. exactly when
`added` lies in the wrap-around window `(lastChangeTick, currentTick]` —
and the two examples hold. -/
theorem C1_is_added_window_characterization :
    (∀ (t : ComponentTicks) (last cur : Nat),
        t.added < W → cur < W → last ≤ cur →
        (t.is_added last cur = true ↔ last < t.added ∧ t.added ≤ cur)) ∧
    (∀ (t : ComponentTicks) (last cur : Nat),
        t.added < W → last < W → cur < last →
        (t.is_added last cur = true ↔ (last < t.added ∨ t.added ≤ cur))) ∧
    ComponentTicks.is_added ⟨10, 7⟩ 10 20 = false ∧
    ComponentTicks.is_added ⟨11, 7⟩ 10 20 = true := by
  refine ⟨?_, ?_, by decide, by decide⟩
  · intro t last cur ha hc hl
    simp only [ComponentTicks.is_added, decide_eq_true_eq]
    rw [wsub_sub_eq cur t.added hc ha, wsub_sub_eq cur last hc (lt_of_le_of_lt hl hc)]
    simp only [W] at ha hc ⊢
    split_ifs <;> omega
  · intro t last cur ha hl hc
    simp only [ComponentTicks.is_added, decide_eq_true_eq]
    rw [wsub_sub_eq cur t.added (by omega) ha, wsub_sub_eq cur last (by omega) hl]
    simp only [W] at ha hl hc ⊢
    split_ifs <;> omega

/-- C1 witness: the wrap-around branch of the characterization applied at
a context that wrapped past zero, with the added tick placed shortly
before the wrap. -/
theorem C1_is_added_window_characterization_witness :
    ComponentTicks.is_added ⟨4294967294, 0⟩ 4294967290 5 = true :=
  (C1_is_added_window_characterization.2.1 ⟨4294967294, 0⟩ 4294967290 5
    (by decide) (by decide) (by decide)).mpr (Or.inl (by decide))

/-- C1 counterexample: at `added = 10, lastChangeTick = 10,
currentTick = 20` the claim's `≤` formula is satisfied while the claim
itself (with the spec's Example 4) requires `isAdded() = false`, so
`isAdded()` is not computed by the `≤` formula. -/
theorem C1_leq_formula_counterexample :
    is_added_leq_formula ⟨10, 7⟩ 10 20 = true ∧
    ComponentTicks.is_added ⟨10, 7⟩ 10 20 = false := by
  decide

/-- C3.  The claim as frozen says mutable access makes `isChanged()` true
"for every subsequent check in the same or a later tick context"; that
universal fails (see the counterexample: once a later context's
`lastChangeTick` has caught up with the write tick, `isChanged()` is
false again).  Amended statement: `deref_mut`/`as_mut` on `ResMut`,
`NonSendMut`, `Mut` and `ReflectMut` always apply `set_changed` first, so
the slot's `changed` tick becomes the access context's `currentTick`, and
every subsequent check whose observation window still contains that write
tick (`lastChangeTick < changeTick ≤ currentTick < 2^32`) reports
`isChanged() = true`; shared views (`Res`, `NonSend`, and the shared
`deref` of the mutable accessors) only return the value and never touch
the tick pair. -/
theorem C3_mutable_view_flags_shared_view_does_not :
    ∀ (α : Type),
      (∀ (r : ResMut α),
          (r.deref_mut).2 = r.set_changed ∧ r.as_mut = r.deref_mut ∧
          (r.deref_mut).2.ticks.component_ticks.changed = r.ticks.change_tick) ∧
      (∀ (r : ResMut α) (last cur : Nat),
          last < r.ticks.change_tick → r.ticks.change_tick ≤ cur → cur < W →
          (r.deref_mut).2.ticks.component_ticks.is_changed last cur = true) ∧
      (∀ (r : NonSendMut α),
          (r.deref_mut).2 = r.set_changed ∧ r.as_mut = r.deref_mut ∧
          (r.deref_mut).2.ticks.component_ticks.changed = r.ticks.change_tick) ∧
      (∀ (r : NonSendMut α) (last cur : Nat),
          last < r.ticks.change_tick → r.ticks.change_tick ≤ cur → cur < W →
          (r.deref_mut).2.ticks.component_ticks.is_changed last cur = true) ∧
      (∀ (r : Mut α),
          (r.deref_mut).2 = r.set_changed ∧ r.as_mut = r.deref_mut ∧
          (r.deref_mut).2.ticks.component_ticks.changed = r.ticks.change_tick) ∧
      (∀ (r : Mut α) (last cur : Nat),
          last < r.ticks.change_tick → r.ticks.change_tick ≤ cur → cur < W →
          (r.deref_mut).2.ticks.component_ticks.is_changed last cur = true) ∧
      (∀ (r : ReflectMut α),
          (r.deref_mut).2 = r.set_changed ∧ r.as_mut = r.deref_mut ∧
          (r.deref_mut).2.ticks.component_ticks.changed = r.ticks.change_tick) ∧
      (∀ (r : ReflectMut α) (last cur : Nat),
          last < r.ticks.change_tick → r.ticks.change_tick ≤ cur → cur < W →
          (r.deref_mut).2.ticks.component_ticks.is_changed last cur = true) ∧
      (∀ (r : Res α), r.deref = r.value) ∧
      (∀ (r : NonSend α), r.deref = r.value) ∧
      (∀ (r : ResMut α), r.deref = r.value) ∧
      (∀ (r : NonSendMut α), r.deref = r.value) ∧
      (∀ (r : Mut α), r.deref = r.value) ∧
      (∀ (r : ReflectMut α), r.deref = r.value) :=
  fun _ =>
    ⟨fun _ => ⟨rfl, rfl, rfl⟩,
     fun _ last cur h1 h2 h3 => is_changed_true_of_window _ last cur h1 h2 h3,
     fun _ => ⟨rfl, rfl, rfl⟩,
     fun _ last cur h1 h2 h3 => is_changed_true_of_window _ last cur h1 h2 h3,
     fun _ => ⟨rfl, rfl, rfl⟩,
     fun _ last cur h1 h2 h3 => is_changed_true_of_window _ last cur h1 h2 h3,
     fun _ => ⟨rfl, rfl, rfl⟩,
     fun _ last cur h1 h2 h3 => is_changed_true_of_window _ last cur h1 h2 h3,
     fun _ => rfl, fun _ => rfl, fun _ => rfl, fun _ => rfl, fun _ => rfl, fun _ => rfl⟩

/-- C3 witness: a mutable dereference under context
`(lastChangeTick = 0, currentTick = 5)` makes `isChanged()` true in the
later, still-unobserved context `(4, 9)`. -/
theorem C3_mutable_view_flags_shared_view_does_not_witness :
    ComponentTicks.is_changed
      (((⟨0, ⟨⟨0, 0⟩, 0, 5⟩⟩ : ResMut Nat).deref_mut).2).ticks.component_ticks 4 9 = true :=
  (C3_mutable_view_flags_shared_view_does_not Nat).2.1 ⟨0, ⟨⟨0, 0⟩, 0, 5⟩⟩ 4 9
    (by decide) (by decide) (by decide)

/-- C3 counterexample: after a mutable dereference at
`currentTick = 5`, a check in the later tick context
`(lastChangeTick = 5, currentTick = 10)` — a subsequent run of the
observing system — reports `isChanged() = false`, refuting "true for
every subsequent check in the same or a later tick context". -/
theorem C3_later_context_counterexample :
    ComponentTicks.is_changed
      (((⟨0, ⟨⟨0, 0⟩, 0, 5⟩⟩ : ResMut Nat).deref_mut).2).ticks.component_ticks 5 10 = false := by
  decide

/-- C4.  The claim asserts a distinct, explicitly named operation yielding
a mutable view without flagging.  `change_detection.rs` defines no such
operation: the only operations handing out the wrapped value mutably are
`deref_mut`, `as_mut` and `into_inner` (plus `ReflectMut`'s
`deref_mut`/`as_mut`), and every one of them applies `set_changed` first.
Amended statement: no unflagged mutable view exists — each mutable-view
operation of each mutable accessor stamps the slot's `changed` tick with
the context's `currentTick`. -/
theorem C4_every_mutable_view_flags :
    ∀ (α : Type),
      (∀ (r : ResMut α),
          (r.deref_mut).2.ticks.component_ticks.changed = r.ticks.change_tick ∧
          (r.as_mut).2.ticks.component_ticks.changed = r.ticks.change_tick ∧
          (r.into_inner).2.component_ticks.changed = r.ticks.change_tick) ∧
      (∀ (r : NonSendMut α),
          (r.deref_mut).2.ticks.component_ticks.changed = r.ticks.change_tick ∧
          (r.as_mut).2.ticks.component_ticks.changed = r.ticks.change_tick ∧
          (r.into_inner).2.component_ticks.changed = r.ticks.change_tick) ∧
      (∀ (r : Mut α),
          (r.deref_mut).2.ticks.component_ticks.changed = r.ticks.change_tick ∧
          (r.as_mut).2.ticks.component_ticks.changed = r.ticks.change_tick ∧
          (r.into_inner).2.component_ticks.changed = r.ticks.change_tick) ∧
      (∀ (r : ReflectMut α),
          (r.deref_mut).2.ticks.component_ticks.changed = r.ticks.change_tick ∧
          (r.as_mut).2.ticks.component_ticks.changed = r.ticks.change_tick) :=
  fun _ =>
    ⟨fun _ => ⟨rfl, rfl, rfl⟩, fun _ => ⟨rfl, rfl, rfl⟩,
     fun _ => ⟨rfl, rfl, rfl⟩, fun _ => ⟨rfl, rfl⟩⟩

/-- C4 counterexample: a concrete accessor whose slot starts with
`changed = 0` under `currentTick = 7`; every operation of the public API
that yields a mutable view moves `changed` to `7` — none leaves the tick
pair unchanged, so the claimed unflagged escape hatch does not exist in
this code. -/
theorem C4_no_escape_hatch_counterexample :
    ((⟨0, ⟨⟨3, 0⟩, 0, 7⟩⟩ : ResMut Nat).deref_mut).2.ticks.component_ticks.changed = 7 ∧
    ((⟨0, ⟨⟨3, 0⟩, 0, 7⟩⟩ : ResMut Nat).as_mut).2.ticks.component_ticks.changed = 7 ∧
    ((⟨0, ⟨⟨3, 0⟩, 0, 7⟩⟩ : ResMut Nat).into_inner).2.component_ticks.changed = 7 ∧
    ((⟨0, ⟨⟨3, 0⟩, 0, 7⟩⟩ : NonSendMut Nat).deref_mut).2.ticks.component_ticks.changed = 7 ∧
    ((⟨0, ⟨⟨3, 0⟩, 0, 7⟩⟩ : NonSendMut Nat).as_mut).2.ticks.component_ticks.changed = 7 ∧
    ((⟨0, ⟨⟨3, 0⟩, 0, 7⟩⟩ : NonSendMut Nat).into_inner).2.component_ticks.changed = 7 ∧
    ((⟨0, ⟨⟨3, 0⟩, 0, 7⟩⟩ : Mut Nat).deref_mut).2.ticks.component_ticks.changed = 7 ∧
    ((⟨0, ⟨⟨3, 0⟩, 0, 7⟩⟩ : Mut Nat).as_mut).2.ticks.component_ticks.changed = 7 ∧
    ((⟨0, ⟨⟨3, 0⟩, 0, 7⟩⟩ : Mut Nat).into_inner).2.component_ticks.changed = 7 ∧
    ((⟨0, ⟨⟨3, 0⟩, 0, 7⟩⟩ : ReflectMut Nat).deref_mut).2.ticks.component_ticks.changed = 7 ∧
    ((⟨0, ⟨⟨3, 0⟩, 0, 7⟩⟩ : ReflectMut Nat).as_mut).2.ticks.component_ticks.changed = 7 := by
  decide

/-- C9.  `into_inner` on each accessor that has it (`ResMut`,
`NonSendMut`, `Mut`) consumes the accessor, returns the wrapped value
unchanged, and leaves the borrowed slot ticks exactly one `set_changed`
application later — `changed` equals the context's `currentTick`. -/
theorem C9_into_inner_flags_at_consumption :
    ∀ (α : Type),
      (∀ (r : ResMut α),
          r.into_inner = (r.value,
            { r.ticks with
                component_ticks := r.ticks.component_ticks.set_changed r.ticks.change_tick }) ∧
          (r.into_inner).2.component_ticks.changed = r.ticks.change_tick) ∧
      (∀ (r : NonSendMut α),
          r.into_inner = (r.value,
            { r.ticks with
                component_ticks := r.ticks.component_ticks.set_changed r.ticks.change_tick }) ∧
          (r.into_inner).2.component_ticks.changed = r.ticks.change_tick) ∧
      (∀ (r : Mut α),
          r.into_inner = (r.value,
            { r.ticks with
                component_ticks := r.ticks.component_ticks.set_changed r.ticks.change_tick }) ∧
          (r.into_inner).2.component_ticks.changed = r.ticks.change_tick) :=
  fun _ => ⟨fun _ => ⟨rfl, rfl⟩, fun _ => ⟨rfl, rfl⟩, fun _ => ⟨rfl, rfl⟩⟩

theorem FallibleCommandConfig.onErrStep_of_none {C E ω : Type}
    (cfg : FallibleCommandConfig C E ω) (h : cfg.command = none)
    (handler : CommandErrorHandler E ω) : cfg.onErrStep handler = cfg := by
  cases cfg
  simp_all [FallibleCommandConfig.onErrStep, FallibleCommandConfig.on_err]

theorem FallibleCommandConfig.foldl_onErrStep_of_none {C E ω : Type}
    (hs : List (CommandErrorHandler E ω)) (cfg : FallibleCommandConfig C E ω)
    (h : cfg.command = none) : hs.foldl FallibleCommandConfig.onErrStep cfg = cfg := by
  induction hs with
  | nil => rfl
  | cons hd tl ih =>
      rw [List.foldl_cons, FallibleCommandConfig.onErrStep_of_none cfg h hd, ih]

theorem FinalFallibleCommandConfig.onErrStepFinal_of_none {C E ω : Type}
    (cfg : FinalFallibleCommandConfig C E ω) (h : cfg.command = none)
    (handler : CommandErrorHandler E ω) : cfg.onErrStep handler = cfg := by
  cases cfg
  simp_all [FinalFallibleCommandConfig.onErrStep, FinalFallibleCommandConfig.on_err]

theorem FinalFallibleCommandConfig.foldl_onErrStepFinal_of_none {C E ω : Type}
    (hs : List (CommandErrorHandler E ω)) (cfg : FinalFallibleCommandConfig C E ω)
    (h : cfg.command = none) : hs.foldl FinalFallibleCommandConfig.onErrStep cfg = cfg := by
  induction hs with
  | nil => rfl
  | cons hd tl ih =>
      rw [List.foldl_cons, FinalFallibleCommandConfig.onErrStepFinal_of_none cfg h hd, ih]

/-- C5.  On either staging object, the first `on_err` succeeds, takes the
command out, and records exactly the one `HandledErrorCommand`; a second
`on_err` on the same object raises the fatal `expect` panic and the
panicking call leaves the staged state — in particular the sink —
unchanged: no second attachment is recorded. -/
theorem C5_on_err_twice_is_fatal :
    ∀ (C E ω : Type) (c : C) (q : List (HandledErrorCommand C E ω))
      (h1 h2 : CommandErrorHandler E ω),
      (FallibleCommandConfig.new c q).on_err h1 =
          Except.ok { command := none
                      inner := q ++ [{ command := c, error_handler := h1 }] } ∧
      (FallibleCommandConfig.onErrStep (FallibleCommandConfig.new c q) h1).on_err h2 =
          Except.error onErrPanicMsg ∧
      FallibleCommandConfig.onErrStep
          (FallibleCommandConfig.onErrStep (FallibleCommandConfig.new c q) h1) h2 =
        FallibleCommandConfig.onErrStep (FallibleCommandConfig.new c q) h1 ∧
      (FinalFallibleCommandConfig.new c q).on_err h1 =
          Except.ok { command := none
                      inner := q ++ [{ command := c, error_handler := h1 }] } ∧
      (FinalFallibleCommandConfig.onErrStep (FinalFallibleCommandConfig.new c q) h1).on_err h2 =
          Except.error onErrPanicMsg ∧
      FinalFallibleCommandConfig.onErrStep
          (FinalFallibleCommandConfig.onErrStep (FinalFallibleCommandConfig.new c q) h1) h2 =
        FinalFallibleCommandConfig.onErrStep (FinalFallibleCommandConfig.new c q) h1 :=
  fun _ _ _ _ _ _ _ => ⟨rfl, rfl, rfl, rfl, rfl, rfl⟩

/-- C6.  Discarding either staging object with the command still staged
attaches `CommandErrorHandler::log` implicitly: the dropped object's sink
ends with exactly one `HandledErrorCommand` carrying `log`, and when that
command's dispatch later fails with error `e`, its `write` invokes the
log handler with `e` exactly once (invocation trace `[e]`; `log` leaves
the world as the failed dispatch left it). -/
theorem C6_drop_attaches_default_log_handler :
    ∀ (C E ω : Type) (c : C) (q : List (HandledErrorCommand C E ω)),
      (FallibleCommandConfig.new c q).drop =
          { command := none
            inner := q ++ [{ command := c, error_handler := CommandErrorHandler.log }] } ∧
      (FinalFallibleCommandConfig.new c q).drop =
          { command := none
            inner := q ++ [{ command := c, error_handler := CommandErrorHandler.log }] } ∧
      (∀ (tryWrite : C → ω → ω × Option E) (w w1 : ω) (e : E),
          tryWrite c w = (w1, some e) →
          HandledErrorCommand.write tryWrite
              { command := c, error_handler := CommandErrorHandler.log } w = (some w1, [e])) := by
  intro C E ω c q
  refine ⟨rfl, rfl, ?_⟩
  intro tryWrite w w1 e h
  simp [HandledErrorCommand.write, h, runHandler]

/-- C6 witness: the log handler attached on discard is invoked with the
failure value exactly once for a concrete always-failing dispatch. -/
theorem C6_drop_attaches_default_log_handler_witness :
    HandledErrorCommand.write (fun (c w : Nat) => (w + c, some c))
        { command := 5, error_handler := CommandErrorHandler.log } 3 = (some 8, [5]) :=
  (C6_drop_attaches_default_log_handler Nat Nat Nat 5 []).2.2
    (fun c w => (w + c, some c)) 3 8 5 rfl

/-- C7.  `Command::write` for `HandledErrorCommand` invokes the attached
handler with the produced failure value exactly once iff the dispatch
operation fails (invocation trace `[e]`); on success the handler never
runs (trace `[]`), and the failure goes nowhere but that one handler —
`write`'s entire result is the handler's outcome. -/
theorem C7_write_routes_failure_to_handler_exactly_once :
    ∀ (C E ω : Type) (tryWrite : C → ω → ω × Option E)
      (cmd : HandledErrorCommand C E ω) (w : ω),
      (∀ w1, tryWrite cmd.command w = (w1, none) →
          cmd.write tryWrite w = (some w1, [])) ∧
      (∀ w1 e, tryWrite cmd.command w = (w1, some e) →
          cmd.write tryWrite w = (runHandler cmd.error_handler e w1, [e])) := by
  intro C E ω tryWrite cmd w
  constructor
  · intro w1 h
    simp [HandledErrorCommand.write, h]
  · intro w1 e h
    simp [HandledErrorCommand.write, h]

/-- C7 witness: a failing dispatch routes its error to the handler once;
with the `ignore` handler the apply pass continues with the dispatch's
world. -/
theorem C7_write_routes_failure_to_handler_exactly_once_witness :
    HandledErrorCommand.write (fun (c w : Nat) => (w, some c))
        { command := 5, error_handler := CommandErrorHandler.ignore } 0 = (some 0, [5]) :=
  (C7_write_routes_failure_to_handler_exactly_once Nat Nat Nat
    (fun c w => (w, some c)) { command := 5, error_handler := CommandErrorHandler.ignore } 0).2
    0 5 rfl

/-- C10.  Over a staging object's whole lifetime — construction, any
sequence of `on_err` attempts, then `Drop` — exactly one
`HandledErrorCommand` is added to the sink: the first `on_err` (or, if
none happened, the `Drop` with the default log handler) adds it, the
command is then taken (`None`), every later `on_err` attempt panics
without adding, and `Drop` adds nothing when the command is gone, so
explicit and implicit registration can never both fire. -/
theorem C10_exactly_one_registration_per_lifetime :
    ∀ (C E ω : Type) (c : C) (q : List (HandledErrorCommand C E ω))
      (hs : List (CommandErrorHandler E ω)),
      (hs.foldl FallibleCommandConfig.onErrStep (FallibleCommandConfig.new c q)).drop =
          { command := none
            inner := q ++
              [{ command := c, error_handler := hs.headD CommandErrorHandler.log }] } ∧
      (hs.foldl FinalFallibleCommandConfig.onErrStep (FinalFallibleCommandConfig.new c q)).drop =
          { command := none
            inner := q ++
              [{ command := c, error_handler := hs.headD CommandErrorHandler.log }] } := by
  intro C E ω c q hs
  constructor
  · cases hs with
    | nil => rfl
    | cons hd tl =>
        rw [List.foldl_cons]
        have h1 : FallibleCommandConfig.onErrStep (FallibleCommandConfig.new c q) hd =
            { command := none, inner := q ++ [{ command := c, error_handler := hd }] } := rfl
        rw [h1, FallibleCommandConfig.foldl_onErrStep_of_none tl _ rfl]
        rfl
  · cases hs with
    | nil => rfl
    | cons hd tl =>
        rw [List.foldl_cons]
        have h1 : FinalFallibleCommandConfig.onErrStep (FinalFallibleCommandConfig.new c q) hd =
            { command := none, inner := q ++ [{ command := c, error_handler := hd }] } := rfl
        rw [h1, FinalFallibleCommandConfig.foldl_onErrStepFinal_of_none tl _ rfl]
        rfl

theorem foldl_collect {U : Type} (metas : List (TypedErasedMeta U)) :
    ∀ (init : List (Nat × U)),
      metas.foldl (fun s m => s ++ [(m.offset, m.user_data)]) init =
        init ++ metas.map (fun m => (m.offset, m.user_data)) := by
  induction metas with
  | nil => intro init; simp
  | cons hd tl ih => intro init; simp [ih]

theorem pushAll_eq {U : Type} (items : List (List Nat × U)) :
    ∀ (v : TypeErasedVec U),
      TypeErasedVec.pushAll v items =
        { bytes := v.bytes ++ (items.map Prod.fst).flatten
          metas := v.metas ++ TypeErasedVec.metasFrom v.bytes.length items } := by
  induction items with
  | nil => intro v; simp [TypeErasedVec.pushAll, TypeErasedVec.metasFrom]
  | cons it rest ih =>
      intro v
      have h0 : TypeErasedVec.pushAll v (it :: rest) =
          TypeErasedVec.pushAll (v.push it.1 it.2) rest := rfl
      rw [h0, ih]
      simp [TypeErasedVec.push, TypeErasedVec.metasFrom, List.append_assoc]

theorem metasFrom_map_user_data {U : Type} (items : List (List Nat × U)) :
    ∀ (base : Nat),
      (TypeErasedVec.metasFrom base items).map (fun m => m.user_data) =
        items.map Prod.snd := by
  induction items with
  | nil => intro base; rfl
  | cons it rest ih => intro base; simp [TypeErasedVec.metasFrom, ih]

theorem forall2_slice {U : Type} (items : List (List Nat × U)) :
    ∀ (pre : List Nat),
      List.Forall₂
        (fun (pu : Nat × U) (it : List Nat × U) =>
          TypeErasedVec.slice (pre ++ (items.map Prod.fst).flatten) pu.1 it.1.length = it.1)
        ((TypeErasedVec.metasFrom pre.length items).map (fun m => (m.offset, m.user_data)))
        items := by
  induction items with
  | nil => intro pre; exact List.Forall₂.nil
  | cons it rest ih =>
      intro pre
      simp only [TypeErasedVec.metasFrom, List.map_cons, List.flatten_cons]
      refine List.Forall₂.cons ?_ ?_
      · show TypeErasedVec.slice (pre ++ (it.1 ++ (rest.map Prod.fst).flatten))
            pre.length it.1.length = it.1
        rw [TypeErasedVec.slice, List.drop_left, List.take_left]
      · have h := ih (pre ++ it.1)
        simpa [List.append_assoc, List.length_append] using h

/-- C2.  Draining a buffer built by any sequence of pushes (sizes
arbitrary, zero-size included) visits exactly one record per pushed
value, in insertion order: the recording visitor's trace carries the
pushed metadata payloads in push order, each visited pointer exposes a
bit-identical copy of the corresponding pushed value inside the pre-drain
arena, and afterwards the arena and the metadata table are both empty. -/
theorem C2_drain_visits_in_insertion_order :
    ∀ (U : Type) (items : List (List Nat × U)),
      ((TypeErasedVec.pushAll TypeErasedVec.new items).drain
          (fun acc off u => acc ++ [(off, u)]) ([] : List (Nat × U))).1.map Prod.snd =
        items.map Prod.snd ∧
      List.Forall₂
        (fun (pu : Nat × U) (it : List Nat × U) =>
          TypeErasedVec.slice (TypeErasedVec.pushAll TypeErasedVec.new items).bytes
              pu.1 it.1.length = it.1)
        ((TypeErasedVec.pushAll TypeErasedVec.new items).drain
          (fun acc off u => acc ++ [(off, u)]) ([] : List (Nat × U))).1
        items ∧
      ((TypeErasedVec.pushAll TypeErasedVec.new items).drain
          (fun acc off u => acc ++ [(off, u)]) ([] : List (Nat × U))).2.bytes = [] ∧
      ((TypeErasedVec.pushAll TypeErasedVec.new items).drain
          (fun acc off u => acc ++ [(off, u)]) ([] : List (Nat × U))).2.metas = [] ∧
      ((TypeErasedVec.pushAll TypeErasedVec.new items).drain
          (fun acc off u => acc ++ [(off, u)]) ([] : List (Nat × U))).2.is_empty = true := by
  intro U items
  have hv : TypeErasedVec.pushAll TypeErasedVec.new items =
      { bytes := (items.map Prod.fst).flatten
        metas := TypeErasedVec.metasFrom 0 items } := by
    rw [pushAll_eq]
    rfl
  have htrace : ((TypeErasedVec.pushAll TypeErasedVec.new items).drain
      (fun acc off u => acc ++ [(off, u)]) ([] : List (Nat × U))).1 =
      (TypeErasedVec.metasFrom 0 items).map (fun m => (m.offset, m.user_data)) := by
    rw [hv]
    simp [TypeErasedVec.drain, foldl_collect]
  refine ⟨?_, ?_, rfl, rfl, rfl⟩
  · rw [htrace, List.map_map]
    have := metasFrom_map_user_data items 0
    simpa [Function.comp] using this
  · rw [htrace, hv]
    have h := forall2_slice items []
    simpa using h

theorem metasFrom_offset_mem_ge {U : Type} (items : List (List Nat × U)) :
    ∀ (base : Nat) (m : TypedErasedMeta U),
      m ∈ TypeErasedVec.metasFrom base items → base ≤ m.offset := by
  induction items with
  | nil => intro base m h; cases h
  | cons it rest ih =>
      intro base m h
      rcases List.mem_cons.mp h with h1 | h1
      · subst h1; exact Nat.le_refl base
      · exact Nat.le_trans (Nat.le_add_right base it.1.length) (ih _ m h1)

theorem metasFrom_offsets_chain {U : Type} (items : List (List Nat × U)) :
    ∀ (base : Nat),
      List.Chain' (· ≤ ·)
        (((TypeErasedVec.metasFrom base items).map (fun m => m.offset)) ++
          [base + ((items.map Prod.fst).flatten).length]) := by
  induction items with
  | nil => intro base; simp [TypeErasedVec.metasFrom]
  | cons it rest ih =>
      intro base
      simp only [TypeErasedVec.metasFrom, List.map_cons, List.flatten_cons, List.cons_append]
      rw [List.chain'_cons']
      constructor
      · intro b hb
        have hmem : b ∈ ((TypeErasedVec.metasFrom (base + it.1.length) rest).map
            (fun m => m.offset)) ++ [base + (it.1 ++ (rest.map Prod.fst).flatten).length] :=
          List.mem_of_mem_head? hb
        rcases List.mem_append.mp hmem with h1 | h1
        · rcases List.mem_map.mp h1 with ⟨m, hm, hoff⟩
          have := metasFrom_offset_mem_ge rest (base + it.1.length) m hm
          omega
        · have : b = base + (it.1 ++ (rest.map Prod.fst).flatten).length :=
            List.mem_singleton.mp h1
          subst this
          exact Nat.le_add_right base _
      · have h := ih (base + it.1.length)
        simpa [List.length_append, Nat.add_assoc] using h

theorem metasFrom_size_bound {U : Type} (items : List (List Nat × U)) :
    ∀ (base : Nat),
      List.Forall₂
        (fun (m : TypedErasedMeta U) (it : List Nat × U) =>
          m.offset + it.1.length ≤ base + ((items.map Prod.fst).flatten).length)
        (TypeErasedVec.metasFrom base items) items := by
  induction items with
  | nil => intro base; exact List.Forall₂.nil
  | cons it rest ih =>
      intro base
      simp only [TypeErasedVec.metasFrom, List.map_cons, List.flatten_cons]
      refine List.Forall₂.cons ?_ ?_
      · simp [List.length_append]
      · refine List.Forall₂.imp ?_ (ih (base + it.1.length))
        intro m it2 h
        simp only [List.length_append]
        omega

theorem runOps_reachable {U : Type} (ops : List (BufOp U)) :
    ∀ (v : TypeErasedVec U),
      (∃ i0, v = TypeErasedVec.pushAll TypeErasedVec.new i0) →
      ∃ items, TypeErasedVec.runOps v ops = TypeErasedVec.pushAll TypeErasedVec.new items := by
  induction ops with
  | nil =>
      intro v hv
      exact hv
  | cons op rest ih =>
      intro v hv
      have hstep : TypeErasedVec.runOps v (op :: rest) =
          TypeErasedVec.runOps (v.applyOp op) rest := rfl
      rw [hstep]
      apply ih
      rcases hv with ⟨i0, hi0⟩
      cases op with
      | push value user_data =>
          refine ⟨i0 ++ [(value, user_data)], ?_⟩
          subst hi0
          simp [TypeErasedVec.applyOp, TypeErasedVec.pushAll, List.foldl_append]
      | drain => exact ⟨[], rfl⟩
      | iter_mut => exact ⟨i0, hi0⟩
      | clear =>
          refine ⟨[], ?_⟩
          cases v
          rfl

/-- C8.  The claim requires strictly increasing offsets even with
zero-size pushes; zero-size records reuse the previous end offset, so
strictness fails (see the counterexample).  Amended statement: in every
quiescent state reachable by any sequence of `push`, `drain`, `iter_mut`
and `clear` from the empty buffer — each such state is the result of
replaying the pushes since the last reset — the metadata offsets are
non-decreasing, each offset and each offset-plus-its-value's-size stays
within the arena length, and `len()` equals the metadata table length. -/
theorem C8_reachable_state_invariant :
    ∀ (U : Type) (ops : List (BufOp U)),
      ∃ items,
        TypeErasedVec.runOps TypeErasedVec.new ops =
          TypeErasedVec.pushAll TypeErasedVec.new items ∧
        List.Chain' (· ≤ ·)
          (((TypeErasedVec.runOps TypeErasedVec.new ops).metas.map (fun m => m.offset)) ++
            [(TypeErasedVec.runOps TypeErasedVec.new ops).bytes.length]) ∧
        List.Forall₂
          (fun (m : TypedErasedMeta U) (it : List Nat × U) =>
            m.offset + it.1.length ≤ (TypeErasedVec.runOps TypeErasedVec.new ops).bytes.length)
          (TypeErasedVec.runOps TypeErasedVec.new ops).metas items ∧
        (TypeErasedVec.runOps TypeErasedVec.new ops).len =
          (TypeErasedVec.runOps TypeErasedVec.new ops).metas.length := by
  intro U ops
  obtain ⟨items, hit⟩ := runOps_reachable ops TypeErasedVec.new ⟨[], rfl⟩
  have hv : TypeErasedVec.pushAll TypeErasedVec.new items =
      { bytes := (items.map Prod.fst).flatten
        metas := TypeErasedVec.metasFrom 0 items } := by
    rw [pushAll_eq]
    rfl
  refine ⟨items, hit, ?_, ?_, rfl⟩
  · rw [hit, hv]
    have h := metasFrom_offsets_chain items 0
    simpa using h
  · rw [hit, hv]
    have h := metasFrom_size_bound items 0
    simpa using h

/-- C8 counterexample: pushing two zero-size values leaves both records
at offset `0` — a reachable quiescent state whose stored offsets are not
strictly increasing. -/
theorem C8_zero_size_offsets_counterexample :
    (TypeErasedVec.runOps (TypeErasedVec.new : TypeErasedVec Nat)
        [BufOp.push [] 0, BufOp.push [] 1]).metas.map (fun m => m.offset) = [0, 0] ∧
    ¬ List.Chain' (· < ·)
        ((TypeErasedVec.runOps (TypeErasedVec.new : TypeErasedVec Nat)
          [BufOp.push [] 0, BufOp.push [] 1]).metas.map (fun m => m.offset)) := by
  refine ⟨rfl, ?_⟩
  intro h
  have e : (TypeErasedVec.runOps (TypeErasedVec.new : TypeErasedVec Nat)
      [BufOp.push [] 0, BufOp.push [] 1]).metas.map (fun m => m.offset) = [0, 0] := rfl
  rw [e] at h
  have h0 : (0 : Nat) < 0 := (List.chain'_cons.mp h).1
  omega
